import Mathlib

/-!
  Verification of the tau-bench partial-scoring scripts.

  The repository holds two independently written scoring scripts:
  `tau-bench-repo/partial_scoring.py` (functions `extract_tool_calls`,
  `compare_values`, `calculate_partial_score`) and
  `improvements/partial_scoring.py` (functions
  `extract_tool_calls_from_trajectory`, `normalize_args`,
  `compare_arguments`, `match_actions_to_tool_calls`,
  `calculate_tool_call_reward`).  Both are embedded below, each in its own
  namespace, over a common model of Python JSON-like values.

  Modelling conventions:
  * Python values that can appear in decoded JSON argument payloads are the
    inductive `Value` (None, bool, int, float, str, dict, list).  Dicts are
    association lists with unique keys (a Python dict cannot hold duplicate
    keys); floats are idealized as rationals (the scripts do no float
    arithmetic on argument values other than equality tests).
  * Python `==` is `pyEq`: numbers (bool/int/float) compare by numeric
    value, dicts by key set and per-key equality, lists pointwise.
  * Python truthiness of a list/dict is emptiness.
  * A serialized `function.arguments` payload is `ArgsField`: either text
    that decodes to a mapping, or text on which decoding raises.  Payloads
    decoding to a non-mapping JSON value are outside the modelled input
    space (the gold data and both scripts only ever produce mappings).
-/

inductive Value where
  | pynone
  | pybool (b : Bool)
  | pyint (n : Int)
  | pyfloat (q : ℚ)
  | pystr (s : String)
  | pydict (es : List (String × Value))
  | pylist (xs : List Value)

/-- Numeric view used by Python `==`: bool, int and float values all
compare by their numeric value (`True == 1`, `1 == 1.0`). -/
def toRat? : Value → Option ℚ
  | .pybool b => some (if b then 1 else 0)
  | .pyint n => some n
  | .pyfloat q => some q
  | _ => none

/-- Dictionary key lookup (`key in d` / `d[key]` on an association list). -/
def lookupVal : List (String × Value) → String → Option Value
  | [], _ => none
  | (k2, v) :: rest, k => if k2 = k then some v else lookupVal rest k

mutual
/-- Python `==` on JSON-like values. -/
def pyEq (e a : Value) : Bool :=
  match toRat? e, toRat? a with
  | some q1, some q2 => q1 == q2
  | _, _ =>
    match e, a with
    | .pynone, .pynone => true
    | .pystr s, .pystr t => s == t
    | .pydict es, .pydict as => es.length == as.length && dictEqB es as
    | .pylist xs, .pylist ys => xs.length == ys.length && listEqB xs ys
    | _, _ => false
termination_by sizeOf e

/-- Python dict equality body: every key of the first dict is present in
the second with an equal value (used together with the length test). -/
def dictEqB : List (String × Value) → List (String × Value) → Bool
  | [], _ => true
  | (k, v) :: rest, as =>
    (match lookupVal as k with
     | some av => pyEq v av
     | none => false) && dictEqB rest as
termination_by es _ => sizeOf es

/-- Python list equality body: pointwise equality (used together with the
length test). -/
def listEqB : List Value → List Value → Bool
  | [], _ => true
  | x :: rest, y :: ys => pyEq x y && listEqB rest ys
  | _ :: _, [] => true
termination_by xs _ => sizeOf xs
end

/-- Python runtime type tags, for the `type(expected) != type(actual)`
test in `compare_values`. -/
inductive PyType where
  | noneT | boolT | intT | floatT | strT | dictT | listT
deriving DecidableEq

def pyTypeOf : Value → PyType
  | .pynone => .noneT
  | .pybool _ => .boolT
  | .pyint _ => .intT
  | .pyfloat _ => .floatT
  | .pystr _ => .strT
  | .pydict _ => .dictT
  | .pylist _ => .listT

namespace TauRepo

mutual
/-- Embedding of `compare_values` from `tau-bench-repo/partial_scoring.py`:
exact equality gives 1.0; a type mismatch gives 0.0; dicts score the sum of
the recursive scores of the expected keys over the expected key count;
lists score each expected item by its best match in the actual list,
averaged; any other case gives 0.0. -/
def compare_values (e a : Value) : ℚ :=
  if pyEq e a then 1
  else if pyTypeOf e ≠ pyTypeOf a then 0
  else
    match e, a with
    | .pydict es, .pydict as =>
      if as.isEmpty then 0
      else if es.length = 0 then 1
      else dictSum es as / es.length
    | .pylist xs, .pylist ys =>
      if ys.isEmpty then (if xs.isEmpty then 1 else 0)
      else if xs.isEmpty then 1
      else listSum xs ys / xs.length
    | _, _ => 0
termination_by sizeOf e

/-- The `matching_keys` accumulation of `compare_values`: an expected key
missing from the actual dict adds 0, a present key adds the recursive
score of the two values. -/
def dictSum : List (String × Value) → List (String × Value) → ℚ
  | [], _ => 0
  | (k, v) :: rest, as =>
    (match lookupVal as k with
     | some av => compare_values v av
     | none => 0) + dictSum rest as
termination_by es _ => sizeOf es

/-- The `matches` accumulation of the list branch of `compare_values`:
each expected item adds its best score against any actual item. -/
def listSum : List Value → List Value → ℚ
  | [], _ => 0
  | x :: rest, ys =>
    ys.foldl (fun best y => max best (compare_values x y)) 0 + listSum rest ys
termination_by xs _ => sizeOf xs
end

end TauRepo

/-- Outcome of the serialized `function.arguments` text of a tool-call
record: either it decodes (via `json.loads`) to a mapping, or decoding
raises.  A field absent from the record is modelled as `decoded []`
(`tau-bench-repo` defaults the text to the serialization of an empty
mapping). -/
inductive ArgsField where
  | decoded (m : List (String × Value))
  | malformed

/-- One entry of a message's `tool_calls` list: its `function.name` (empty
string when absent) and its serialized `function.arguments`. -/
structure ToolCallRecord where
  name : String
  arguments : ArgsField

/-- One conversation turn: its `role` tag and its optional `tool_calls`
list (`none` models both an absent key and an explicit null). -/
structure Turn where
  role : String
  tool_calls : Option (List ToolCallRecord)

/-- A normalized observed tool invocation: name plus decoded argument
mapping. -/
structure ToolInvocation where
  name : String
  arguments : List (String × Value)

/-- A gold expected action: tool name plus expected keyword arguments. -/
structure ExpectedAction where
  name : String
  kwargs : List (String × Value)

namespace TauRepo

/-- The `try: json.loads / except: arguments = {}` step of
`extract_tool_calls`: a payload that fails to decode becomes an empty
mapping. -/
def decodeArgs : ArgsField → List (String × Value)
  | .decoded m => m
  | .malformed => []

/-- Embedding of `extract_tool_calls` from
`tau-bench-repo/partial_scoring.py`: every message whose `tool_calls`
entry is truthy (present, non-null and non-empty) contributes its calls,
in order; the message role is never consulted. -/
def extract_tool_calls : List Turn → List ToolInvocation
  | [] => []
  | m :: rest =>
    (match m.tool_calls with
     | some calls =>
       if calls.isEmpty then []
       else calls.map (fun c => ⟨c.name, decodeArgs c.arguments⟩)
     | none => []) ++ extract_tool_calls rest

/-- Score of one candidate call against one expected action inside
`calculate_partial_score`: 0.4 for the name plus 0.6 times the argument
similarity when the names agree, and 0.0 otherwise. -/
def actionScore (expected : ExpectedAction) (actual : ToolInvocation) : ℚ :=
  if expected.name = actual.name then
    0.4 + 0.6 * compare_values (.pydict expected.kwargs) (.pydict actual.arguments)
  else 0

/-- The inner loop of `calculate_partial_score`: `best_score` starts at
0.0 and takes the maximum candidate score over all actual calls (the pool
is scanned afresh for every expected action; nothing is removed). -/
def bestActionScore (expected : ExpectedAction) (actual_calls : List ToolInvocation) : ℚ :=
  actual_calls.foldl (fun best c => max best (actionScore expected c)) 0

/-- Embedding of `calculate_partial_score` from
`tau-bench-repo/partial_scoring.py`. -/
def calculate_partial_score (expected_actions : List ExpectedAction)
    (actual_calls : List ToolInvocation) : ℚ :=
  if expected_actions.isEmpty then
    (if actual_calls.isEmpty then 1 else 0)
  else
    ((expected_actions.map (fun e => bestActionScore e actual_calls)).sum)
      / expected_actions.length

end TauRepo

/-- Python `repr` on the modelled values, as used (via `str`) by
`normalize_args` in `improvements/partial_scoring.py`.  The repr of a
non-integral float is an idealization (`repr` of binary floats produces a
shortest round-trip decimal, which has no exact counterpart on ℚ); no
claim below depends on it. -/
def floatRepr (q : ℚ) : String :=
  if q.den = 1 then toString q.num ++ ".0"
  else toString q.num ++ "/" ++ toString q.den

mutual
/-- Python `repr` of a JSON-like value (string repr always uses single
quotes; Python only switches quote style for strings containing quotes). -/
def pyRepr : Value → String
  | .pynone => "None"
  | .pybool b => if b then "True" else "False"
  | .pyint n => toString n
  | .pyfloat q => floatRepr q
  | .pystr s => "\x27" ++ s ++ "\x27"
  | .pydict es => "\x7b" ++ reprEntries es ++ "\x7d"
  | .pylist xs => "[" ++ reprList xs ++ "]"
termination_by v => sizeOf v

/-- Comma-separated `'key': repr(value)` rendering of dict items. -/
def reprEntries : List (String × Value) → String
  | [] => ""
  | [(k, v)] => "\x27" ++ k ++ "\x27: " ++ pyRepr v
  | (k, v) :: rest => "\x27" ++ k ++ "\x27: " ++ pyRepr v ++ ", " ++ reprEntries rest
termination_by es => sizeOf es

/-- Comma-separated rendering of list items. -/
def reprList : List Value → String
  | [] => ""
  | [v] => pyRepr v
  | v :: rest => pyRepr v ++ ", " ++ reprList rest
termination_by xs => sizeOf xs
end

/-- Python `str`: the identity on strings, `repr` on the other modelled
values. -/
def pyStr : Value → String
  | .pystr s => s
  | v => pyRepr v

namespace Improvements

/-- One key's normalization step in `normalize_args`: null, boolean and
numeric values are kept; every other value is coerced to its `str` form. -/
def normalizeVal : Value → Value
  | .pynone => .pynone
  | .pybool b => .pybool b
  | .pyint n => .pyint n
  | .pyfloat q => .pyfloat q
  | v => .pystr (pyStr v)

/-- Embedding of `normalize_args` from `improvements/partial_scoring.py`. -/
def normalize_args (args : List (String × Value)) : List (String × Value) :=
  args.map (fun kv => (kv.1, normalizeVal kv.2))

/-- Python `d.get(key)`: the value when present, `None` when absent. -/
def dictGet (m : List (String × Value)) (k : String) : Value :=
  match lookupVal m k with
  | some v => v
  | none => .pynone

/-- Embedding of `compare_arguments` from
`improvements/partial_scoring.py`: after normalization, count the keys of
the UNION of both key sets on which the two `get` results compare equal,
and divide by the union's size.  (The Python `set` iteration order is
irrelevant: only the count of distinct keys matters.) -/
def compare_arguments (expected_args actual_args : List (String × Value)) : ℚ :=
  if expected_args.isEmpty && actual_args.isEmpty then 1
  else
    let en := normalize_args expected_args
    let an := normalize_args actual_args
    let allKeys := (en.map Prod.fst ++ an.map Prod.fst).dedup
    if allKeys.isEmpty then 1
    else
      (allKeys.countP (fun k => pyEq (dictGet en k) (dictGet an k)) : ℚ)
        / allKeys.length

/-- One `(gold_action, matched_tool_call, score)` record of
`match_actions_to_tool_calls`. -/
structure MatchResult where
  gold : ExpectedAction
  matched : Option ToolInvocation
  score : ℚ

/-- The candidate score inside `match_actions_to_tool_calls`:
`0.5 * name_match + 0.5 * args_match`, where the argument term is added
whether or not the names agree. -/
def candScore (gold : ExpectedAction) (tc : ToolInvocation) : ℚ :=
  0.5 * (if gold.name = tc.name then 1 else 0)
    + 0.5 * compare_arguments gold.kwargs tc.arguments

/-- The inner loop of `match_actions_to_tool_calls`: scan the enumerated
candidate pool, skip indices already used, and keep the first candidate
attaining the strictly largest score above the initial `best_score` of 0
(strict `>`, so ties keep the earliest and a score of 0 never binds). -/
def findBest (gold : ExpectedAction) (tool_calls : List ToolInvocation)
    (used : List Nat) : Option (Nat × ToolInvocation × ℚ) :=
  tool_calls.enum.foldl
    (fun best p =>
      if used.contains p.1 then best
      else
        if (match best with | some b => b.2.2 | none => 0) < candScore gold p.2 then
          some (p.1, p.2, candScore gold p.2)
        else best)
    none

/-- The outer loop of `match_actions_to_tool_calls`, threading the set of
used candidate indices: a selected candidate is recorded and its index
retired; otherwise the gold action gets `(gold, None, 0.0)`. -/
def matchGo : List ExpectedAction → List ToolInvocation → List Nat → List MatchResult
  | [], _, _ => []
  | g :: rest, tcs, used =>
    match findBest g tcs used with
    | some b => ⟨g, some b.2.1, b.2.2⟩ :: matchGo rest tcs (b.1 :: used)
    | none => ⟨g, none, 0⟩ :: matchGo rest tcs used

/-- Embedding of `match_actions_to_tool_calls` from
`improvements/partial_scoring.py`. -/
def match_actions_to_tool_calls (gold_actions : List ExpectedAction)
    (tool_calls : List ToolInvocation) : List MatchResult :=
  matchGo gold_actions tool_calls []

/-- Decoding of the tool-call records of one assistant turn in
`extract_tool_calls_from_trajectory`: `json.loads` is called with NO
exception handler, so a malformed payload raises out of the whole
extraction. -/
def extractTurnCalls : List ToolCallRecord → Except Unit (List ToolInvocation)
  | [] => .ok []
  | c :: rest =>
    match c.arguments with
    | .decoded m =>
      match extractTurnCalls rest with
      | .ok tail => .ok (⟨c.name, m⟩ :: tail)
      | .error e => .error e
    | .malformed => .error ()

/-- Embedding of `extract_tool_calls_from_trajectory` from
`improvements/partial_scoring.py`: only turns whose role is "assistant"
and whose `tool_calls` entry is present and non-null contribute; a decode
failure anywhere aborts the extraction. -/
def extract_tool_calls_from_trajectory : List Turn → Except Unit (List ToolInvocation)
  | [] => .ok []
  | t :: rest =>
    if t.role = "assistant" then
      match t.tool_calls with
      | some calls =>
        match extractTurnCalls calls with
        | .error e => .error e
        | .ok here =>
          match extract_tool_calls_from_trajectory rest with
          | .error e => .error e
          | .ok there => .ok (here ++ there)
      | none => extract_tool_calls_from_trajectory rest
    else extract_tool_calls_from_trajectory rest

/-- The `reward_info` record of a task, whose `actions` field may be
null. -/
structure RewardInfo where
  actions : Option (List ExpectedAction)

/-- The `info` record of a task, whose `reward_info` field may be null. -/
structure TaskInfo where
  reward_info : Option RewardInfo

/-- A task record as read by `calculate_tool_call_reward`: optional `info`
and the trajectory. -/
structure Task where
  info : Option TaskInfo
  traj : List Turn

/-- Embedding of `calculate_tool_call_reward` from
`improvements/partial_scoring.py`: a task without gold actions gets reward
0.0 (with an error marker in its breakdown); otherwise the reward is the
mean of the match scores, or 0.0 when there are no matches.  The returned
pair is `(tool_call_reward, matches breakdown)`; the propagated exception
of a malformed payload is the `Except.error` case. -/
def calculate_tool_call_reward (task : Task) : Except Unit (ℚ × List MatchResult) :=
  match task.info with
  | none => .ok (0, [])
  | some info =>
    match info.reward_info with
    | none => .ok (0, [])
    | some ri =>
      match ri.actions with
      | none => .ok (0, [])
      | some gold_actions =>
        match extract_tool_calls_from_trajectory task.traj with
        | .error e => .error e
        | .ok tool_calls =>
          let ms := match_actions_to_tool_calls gold_actions tool_calls
          if ms.isEmpty then .ok (0, ms)
          else .ok ((ms.map (fun m => m.score)).sum / ms.length, ms)

end Improvements

/-- Replacement of a malformed serialized payload by one that decodes to
the empty mapping (what the `except` branch of `extract_tool_calls`
effectively substitutes). -/
def scrubArgs : ArgsField → ArgsField
  | .malformed => .decoded []
  | a => a

/-- The same replacement applied across a whole trajectory. -/
def scrubTraj (traj : List Turn) : List Turn :=
  traj.map (fun t =>
    ⟨t.role, t.tool_calls.map (fun cs => cs.map (fun c => ⟨c.name, scrubArgs c.arguments⟩))⟩)

/-- Renaming of every turn's role tag. -/
def relabelTraj (f : String → String) (traj : List Turn) : List Turn :=
  traj.map (fun t => ⟨f t.role, t.tool_calls⟩)

/-- The values hit by the string-coercion branch of `normalize_args`:
everything that is not null, boolean or numeric (strings, dicts, lists). -/
def strCoercedB : Value → Bool
  | .pystr _ => true
  | .pydict _ => true
  | .pylist _ => true
  | _ => false

/-- Helper: a wrong-named candidate scores 0.0 in `calculate_partial_score`
(the 0.4 name share and the 0.6 argument share are both inside the
name-equality branch). -/
theorem actionScore_of_name_ne {e : ExpectedAction} {c : ToolInvocation}
    (h : e.name ≠ c.name) : TauRepo.actionScore e c = 0 := by
  simp [TauRepo.actionScore, h]

/-- C9: in `compare_values` the exact-equality test precedes the
type-mismatch test, so `1` vs `1.0` and `True` vs `1` score 1.0 even
though their runtime types differ. -/
theorem C9_equality_before_type_check :
    TauRepo.compare_values (.pyint 1) (.pyfloat 1) = 1
      ∧ TauRepo.compare_values (.pybool true) (.pyint 1) = 1
      ∧ pyTypeOf (.pyint 1) ≠ pyTypeOf (.pyfloat 1)
      ∧ pyTypeOf (.pybool true) ≠ pyTypeOf (.pyint 1) := by
  refine ⟨?_, ?_, ?_, ?_⟩
  · simp [TauRepo.compare_values, pyEq, toRat?]
  · simp [TauRepo.compare_values, pyEq, toRat?]
  · simp [pyTypeOf]
  · simp [pyTypeOf]

/-- C6: end-to-end under the 0.4 name / 0.6 arguments scheme of
`calculate_partial_score`: one matching argument key out of two gives
0.4 + 0.6 * 0.5 = 0.7. -/
theorem C6_end_to_end_default_weights :
    TauRepo.calculate_partial_score
        [⟨"update_user", [("email", .pystr "a@b.com"), ("age", .pyint 30)]⟩]
        [⟨"update_user", [("email", .pystr "a@b.com"), ("age", .pyint 99)]⟩]
      = 0.4 + 0.6 * 0.5
      ∧ (0.4 + 0.6 * 0.5 : ℚ) = 7/10 := by
  have h : TauRepo.compare_values
      (.pydict [("email", .pystr "a@b.com"), ("age", .pyint 30)])
      (.pydict [("email", .pystr "a@b.com"), ("age", .pyint 99)]) = 1/2 := by
    simp [TauRepo.compare_values, TauRepo.dictSum, pyEq, dictEqB, toRat?, lookupVal, pyTypeOf]
  have h2 : TauRepo.actionScore
      ⟨"update_user", [("email", .pystr "a@b.com"), ("age", .pyint 30)]⟩
      ⟨"update_user", [("email", .pystr "a@b.com"), ("age", .pyint 99)]⟩
      = 0.4 + 0.6 * (1/2) := by
    rw [TauRepo.actionScore]
    simp [h]
  have h3 : TauRepo.bestActionScore
      ⟨"update_user", [("email", .pystr "a@b.com"), ("age", .pyint 30)]⟩
      [⟨"update_user", [("email", .pystr "a@b.com"), ("age", .pyint 99)]⟩]
      = 0.4 + 0.6 * (1/2) := by
    rw [TauRepo.bestActionScore, List.foldl_cons, List.foldl_nil, h2]
    norm_num
  constructor
  · rw [TauRepo.calculate_partial_score, if_neg (by simp),
      List.map_cons, List.map_nil, List.sum_cons, List.sum_nil, h3]
    norm_num
  · norm_num

/-- C1 counterexample: in `match_actions_to_tool_calls` a candidate whose
name differs from the expected action's name but whose arguments equal the
expected kwargs contributes 0.5, not 0.0, and is even selected as the
match. -/
theorem C1_counterexample :
    Improvements.match_actions_to_tool_calls
        [⟨"transfer_funds", [("x", .pyint 1)]⟩]
        [⟨"wire_funds", [("x", .pyint 1)]⟩]
      = [⟨⟨"transfer_funds", [("x", .pyint 1)]⟩, some ⟨"wire_funds", [("x", .pyint 1)]⟩, 1/2⟩]
      ∧ (1/2 : ℚ) ≠ 0 := by
  constructor
  · simp [Improvements.match_actions_to_tool_calls, Improvements.matchGo,
      Improvements.findBest, Improvements.candScore, Improvements.compare_arguments,
      Improvements.normalize_args, Improvements.normalizeVal, Improvements.dictGet,
      lookupVal, pyEq, toRat?, List.enum, List.enumFrom, List.dedup_cons_of_mem,
      List.dedup_cons_of_not_mem, List.countP_cons, List.countP_nil]
    norm_num
  · norm_num

/-- C2 counterexample: `calculate_partial_score` never retires a matched
invocation, so a single exactly-matching call gives BOTH copies of a
duplicated expected action full credit (task score 1.0, not the 0.5 that
one-to-one matching would give). -/
theorem C2_counterexample :
    TauRepo.calculate_partial_score
        [⟨"book_flight", [("seat", .pystr "A1")]⟩, ⟨"book_flight", [("seat", .pystr "A1")]⟩]
        [⟨"book_flight", [("seat", .pystr "A1")]⟩]
      = 1
      ∧ (1 : ℚ) ≠ 1/2 := by
  have h : TauRepo.compare_values
      (.pydict [("seat", .pystr "A1")]) (.pydict [("seat", .pystr "A1")]) = 1 := by
    simp [TauRepo.compare_values, pyEq, dictEqB, toRat?, lookupVal]
  have h2 : TauRepo.actionScore
      ⟨"book_flight", [("seat", .pystr "A1")]⟩ ⟨"book_flight", [("seat", .pystr "A1")]⟩ = 1 := by
    rw [TauRepo.actionScore]
    simp [h]
    norm_num
  have h3 : TauRepo.bestActionScore
      ⟨"book_flight", [("seat", .pystr "A1")]⟩ [⟨"book_flight", [("seat", .pystr "A1")]⟩] = 1 := by
    rw [TauRepo.bestActionScore, List.foldl_cons, List.foldl_nil, h2]
    norm_num
  constructor
  · rw [TauRepo.calculate_partial_score, if_neg (by simp),
      List.map_cons, List.map_cons, List.map_nil, List.sum_cons, List.sum_cons, List.sum_nil, h3]
    norm_num
  · norm_num

/-- C3 counterexample: `calculate_tool_call_reward` returns reward 0.0 for
an empty gold-action list even when the trajectory holds no invocations
(the `if not matches` branch), where the claim demands 1.0. -/
theorem C3_counterexample :
    Improvements.calculate_tool_call_reward ⟨some ⟨some ⟨some []⟩⟩, []⟩
      = .ok (0, [])
      ∧ (0 : ℚ) ≠ 1 := by
  constructor
  · simp [Improvements.calculate_tool_call_reward,
      Improvements.extract_tool_calls_from_trajectory,
      Improvements.match_actions_to_tool_calls, Improvements.matchGo]
  · norm_num

/-- C4 counterexample: `compare_arguments` scores an empty expected
mapping against a non-empty actual mapping as 0.0, not 1.0 — it divides by
the union of the key sets, so actual-only keys are penalized. -/
theorem C4_counterexample :
    Improvements.compare_arguments [] [("a", .pyint 1)] = 0
      ∧ (0 : ℚ) ≠ 1 := by
  constructor
  · simp [Improvements.compare_arguments, Improvements.normalize_args,
      Improvements.normalizeVal, Improvements.dictGet, lookupVal, pyEq, toRat?,
      List.countP_cons, List.countP_nil]
  · norm_num

/-- C5 counterexample: `extract_tool_calls_from_trajectory` calls
`json.loads` with no exception handler, so one malformed payload aborts
the whole extraction (including the following well-formed call) instead of
becoming an empty mapping. -/
theorem C5_counterexample :
    Improvements.extract_tool_calls_from_trajectory
        [⟨"assistant", some [⟨"transfer_funds", .malformed⟩, ⟨"check_balance", .decoded []⟩]⟩]
      = .error ()
      ∧ (Except.error () : Except Unit (List ToolInvocation))
          ≠ .ok [⟨"transfer_funds", []⟩, ⟨"check_balance", []⟩] := by
  constructor
  · simp [Improvements.extract_tool_calls_from_trajectory, Improvements.extractTurnCalls]
  · simp

/-- C8 counterexample: `extract_tool_calls` never consults the message
role, so a turn with role "user" carrying a tool-call list does produce an
invocation. -/
theorem C8_counterexample :
    TauRepo.extract_tool_calls [⟨"user", some [⟨"get_user_details", .decoded []⟩]⟩]
      = [⟨"get_user_details", []⟩]
      ∧ ([(⟨"get_user_details", []⟩ : ToolInvocation)] : List ToolInvocation) ≠ [] := by
  constructor
  · simp [TauRepo.extract_tool_calls, TauRepo.decodeArgs]
  · simp

/-- C1 (amended): in `calculate_partial_score` a wrong-named candidate
contributes exactly 0.0 — each pair scores 0 and deleting such a candidate
from the pool leaves the task score unchanged (for a non-empty expected
list) — while in `match_actions_to_tool_calls` a wrong-named candidate
still contributes half of its argument similarity. -/
theorem C1_wrong_tool_zero_credit (es : List ExpectedAction) (cs : List ToolInvocation)
    (c : ToolInvocation) (g : ExpectedAction) (tc : ToolInvocation)
    (hne : es ≠ []) (hall : ∀ e ∈ es, e.name ≠ c.name) (hg : g.name ≠ tc.name) :
    TauRepo.calculate_partial_score es (c :: cs) = TauRepo.calculate_partial_score es cs
      ∧ TauRepo.actionScore g tc = 0
      ∧ Improvements.candScore g tc
          = 0.5 * Improvements.compare_arguments g.kwargs tc.arguments := by
  refine ⟨?_, actionScore_of_name_ne hg, ?_⟩
  · have hmap : es.map (fun e => TauRepo.bestActionScore e (c :: cs))
        = es.map (fun e => TauRepo.bestActionScore e cs) := by
      refine List.map_congr_left (fun e he => ?_)
      rw [TauRepo.bestActionScore, List.foldl_cons, actionScore_of_name_ne (hall e he),
        TauRepo.bestActionScore]
      norm_num
    rw [TauRepo.calculate_partial_score, TauRepo.calculate_partial_score,
      if_neg (by simp [hne]), if_neg (by simp [hne]), hmap]
  · simp [Improvements.candScore, hg]

/-- Witness for C1: a concrete wrong-named candidate with identical
arguments neither changes the tau-bench-repo task score nor earns the 0.4
name share, but keeps half of its (full) argument similarity in the
improvements variant. -/
theorem C1_wrong_tool_zero_credit_witness :
    TauRepo.calculate_partial_score
        [⟨"book_flight", [("seat", .pystr "A1")]⟩]
        [⟨"cancel_flight", [("seat", .pystr "A1")]⟩]
      = TauRepo.calculate_partial_score [⟨"book_flight", [("seat", .pystr "A1")]⟩] []
      ∧ TauRepo.actionScore ⟨"book_flight", [("seat", .pystr "A1")]⟩
          ⟨"cancel_flight", [("seat", .pystr "A1")]⟩ = 0
      ∧ Improvements.candScore ⟨"book_flight", [("seat", .pystr "A1")]⟩
          ⟨"cancel_flight", [("seat", .pystr "A1")]⟩
        = 0.5 * Improvements.compare_arguments [("seat", .pystr "A1")] [("seat", .pystr "A1")] :=
  C1_wrong_tool_zero_credit
    [⟨"book_flight", [("seat", .pystr "A1")]⟩] []
    ⟨"cancel_flight", [("seat", .pystr "A1")]⟩
    ⟨"book_flight", [("seat", .pystr "A1")]⟩
    ⟨"cancel_flight", [("seat", .pystr "A1")]⟩
    (by simp) (by simp) (by simp)

/-- C2 (amended): `match_actions_to_tool_calls` does retire a selected
candidate: for two identical expected actions and a single-candidate pool
whose candidate scores above zero, the first expected action binds the
candidate and the second gets `none` with score 0.0.
(`calculate_partial_score` has no such discipline: it rescans the whole
pool for every expected action.) -/
theorem C2_one_to_one_matching (g : ExpectedAction) (c : ToolInvocation)
    (h : 0 < Improvements.candScore g c) :
    Improvements.match_actions_to_tool_calls [g, g] [c]
      = [⟨g, some c, Improvements.candScore g c⟩, ⟨g, none, 0⟩] := by
  have h1 : Improvements.findBest g [c] [] = some (0, c, Improvements.candScore g c) := by
    simp [Improvements.findBest, List.enum, List.enumFrom, h]
  have h2 : Improvements.findBest g [c] [0] = none := by
    simp [Improvements.findBest, List.enum, List.enumFrom]
  simp [Improvements.match_actions_to_tool_calls, Improvements.matchGo, h1, h2]

/-- Witness for C2: with an exactly matching single candidate, the first
copy of the duplicated expected action binds it and the second is left
unmatched at 0.0. -/
theorem C2_one_to_one_matching_witness :
    Improvements.match_actions_to_tool_calls
        [⟨"book_flight", [("seat", .pystr "A1")]⟩, ⟨"book_flight", [("seat", .pystr "A1")]⟩]
        [⟨"book_flight", [("seat", .pystr "A1")]⟩]
      = [⟨⟨"book_flight", [("seat", .pystr "A1")]⟩,
          some ⟨"book_flight", [("seat", .pystr "A1")]⟩,
          Improvements.candScore ⟨"book_flight", [("seat", .pystr "A1")]⟩
            ⟨"book_flight", [("seat", .pystr "A1")]⟩⟩,
         ⟨⟨"book_flight", [("seat", .pystr "A1")]⟩, none, 0⟩] :=
  C2_one_to_one_matching
    ⟨"book_flight", [("seat", .pystr "A1")]⟩ ⟨"book_flight", [("seat", .pystr "A1")]⟩
    (by
      have ha : Improvements.compare_arguments [("seat", .pystr "A1")] [("seat", .pystr "A1")] = 1 := by
        simp [Improvements.compare_arguments, Improvements.normalize_args,
          Improvements.normalizeVal, Improvements.dictGet, lookupVal, pyEq, toRat?,
          List.dedup_cons_of_mem, List.dedup_cons_of_not_mem, List.countP_cons, List.countP_nil]
      rw [Improvements.candScore, ha]
      norm_num)

/-- C3 (amended): the 1.0/0.0 degenerate convention holds for
`calculate_partial_score`; `calculate_tool_call_reward` instead returns
reward 0.0 for an empty gold-action list regardless of the trajectory
(its `matches` list is empty, which falls into the zero branch). -/
theorem C3_empty_expected_degenerate (c : ToolInvocation) (cs : List ToolInvocation)
    (traj : List Turn) (tcs : List ToolInvocation)
    (h : Improvements.extract_tool_calls_from_trajectory traj = .ok tcs) :
    TauRepo.calculate_partial_score [] [] = 1
      ∧ TauRepo.calculate_partial_score [] (c :: cs) = 0
      ∧ Improvements.calculate_tool_call_reward ⟨some ⟨some ⟨some []⟩⟩, traj⟩ = .ok (0, []) := by
  refine ⟨?_, ?_, ?_⟩
  · simp [TauRepo.calculate_partial_score]
  · simp [TauRepo.calculate_partial_score]
  · simp [Improvements.calculate_tool_call_reward, h,
      Improvements.match_actions_to_tool_calls, Improvements.matchGo]

/-- Witness for C3: empty trajectory, one concrete non-empty invocation
list for the 0.0 side. -/
theorem C3_empty_expected_degenerate_witness :
    TauRepo.calculate_partial_score [] [] = 1
      ∧ TauRepo.calculate_partial_score [] (⟨"book_flight", []⟩ :: []) = 0
      ∧ Improvements.calculate_tool_call_reward ⟨some ⟨some ⟨some []⟩⟩, []⟩ = .ok (0, []) :=
  C3_empty_expected_degenerate ⟨"book_flight", []⟩ [] [] [] (by simp
    [Improvements.extract_tool_calls_from_trajectory])

/-- Helper: exact equality short-circuits `compare_values` to 1.0. -/
theorem compare_values_of_pyEq {e a : Value} (h : pyEq e a = true) :
    TauRepo.compare_values e a = 1 := by
  rw [TauRepo.compare_values.eq_def, if_pos h]

/-- Helper: `pyEq` on two dicts is the length test plus the per-key test. -/
theorem pyEq_pydict (es as : List (String × Value)) :
    pyEq (.pydict es) (.pydict as) = (es.length == as.length && dictEqB es as) := by
  rw [pyEq]
  rfl

/-- Helper: an expected dict summed against an empty actual dict gives 0. -/
theorem dictSum_nil_right (es : List (String × Value)) : TauRepo.dictSum es [] = 0 := by
  induction es with
  | nil => rw [TauRepo.dictSum]
  | cons kv rest ih =>
    obtain ⟨k, v⟩ := kv
    rw [TauRepo.dictSum, ih]
    simp [lookupVal]

/-- Helper: when the per-key equality test passes, every expected key
scores 1, so the sum is the expected key count. -/
theorem dictSum_of_dictEqB {es as : List (String × Value)}
    (h : dictEqB es as = true) : TauRepo.dictSum es as = es.length := by
  induction es with
  | nil => rw [TauRepo.dictSum]; simp
  | cons kv rest ih =>
    obtain ⟨k, v⟩ := kv
    rw [dictEqB] at h
    rw [Bool.and_eq_true] at h
    obtain ⟨h1, h2⟩ := h
    rw [TauRepo.dictSum, ih h2]
    cases hl : lookupVal as k with
    | none => rw [hl] at h1; simp at h1
    | some av =>
      rw [hl] at h1
      have h1b : pyEq v av = true := by simpa using h1
      simp only [compare_values_of_pyEq h1b, List.length_cons]
      push_cast
      ring

/-- Helper: the dict-vs-dict case of `compare_values` equals the
reference per-key formula: 1.0 for an empty expected dict, otherwise the
sum of per-key scores over the expected key count. -/
theorem compare_values_pydict (es as : List (String × Value)) :
    TauRepo.compare_values (.pydict es) (.pydict as)
      = if es.isEmpty then 1 else TauRepo.dictSum es as / es.length := by
  by_cases hq : pyEq (.pydict es) (.pydict as) = true
  · rw [compare_values_of_pyEq hq]
    rw [pyEq_pydict, Bool.and_eq_true] at hq
    obtain ⟨hlen, heq⟩ := hq
    by_cases he : es.isEmpty
    · rw [if_pos he]
    · have hne : es ≠ [] := fun h => he (by simp [h])
      have hlen0 : (es.length : ℚ) ≠ 0 := by
        have : es.length ≠ 0 := fun h0 => hne (List.length_eq_zero.mp h0)
        exact_mod_cast this
      rw [if_neg he, dictSum_of_dictEqB heq, div_self hlen0]
  · have hstep : TauRepo.compare_values (.pydict es) (.pydict as)
        = if as.isEmpty then 0 else if es.length = 0 then 1
            else TauRepo.dictSum es as / es.length := by
      rw [TauRepo.compare_values.eq_def, if_neg hq,
        if_neg (show ¬ (pyTypeOf (Value.pydict es) ≠ pyTypeOf (Value.pydict as)) by
          simp [pyTypeOf])]
    rw [hstep]
    by_cases ha : as.isEmpty
    · rw [if_pos ha]
      have hanil : as = [] := by simpa [List.isEmpty_iff] using ha
      subst hanil
      have hesne : ¬ (es.isEmpty = true) := by
        intro hi
        have h0 : es = [] := by simpa [List.isEmpty_iff] using hi
        subst h0
        exact hq (by rw [pyEq_pydict]; simp [dictEqB])
      rw [if_neg hesne, dictSum_nil_right]
      simp
    · rw [if_neg ha]
      by_cases hz : es.length = 0
      · have h0 : es = [] := List.length_eq_zero.mp hz
        subst h0
        simp
      · have hesne : ¬ (es.isEmpty = true) := by
          intro hi
          exact hz (by simpa [List.isEmpty_iff, List.length_eq_zero] using hi)
        rw [if_neg hz, if_neg hesne]

/-- Helper: appending entries whose keys miss `k` does not change a
lookup of `k`. -/
theorem lookupVal_append_of_none {extra : List (String × Value)} {k : String}
    (h : lookupVal extra k = none) (as : List (String × Value)) :
    lookupVal (as ++ extra) k = lookupVal as k := by
  induction as with
  | nil => simpa using h
  | cons kv rest ih =>
    obtain ⟨k2, v⟩ := kv
    rw [List.cons_append, lookupVal, lookupVal]
    by_cases hk : k2 = k
    · rw [if_pos hk, if_pos hk]
    · rw [if_neg hk, if_neg hk, ih]

/-- Helper: actual-dict entries whose keys are absent from the expected
dict contribute nothing to the expected-driven sum. -/
theorem dictSum_append_extra (as extra : List (String × Value)) :
    ∀ es, (∀ kv ∈ es, lookupVal extra kv.1 = none) →
      TauRepo.dictSum es (as ++ extra) = TauRepo.dictSum es as := by
  intro es
  induction es with
  | nil => intro h0; rw [TauRepo.dictSum, TauRepo.dictSum]
  | cons kv rest ih =>
    intro hdisj
    obtain ⟨k, v⟩ := kv
    rw [TauRepo.dictSum, TauRepo.dictSum,
      lookupVal_append_of_none (hdisj (k, v) (by simp)) as,
      ih (fun kv2 hm => hdisj kv2 (by simp [hm]))]

/-- C4 (amended): `compare_values` on two dicts follows the reference
definition — per expected key 0 when absent and the recursive similarity
when present, divided by the expected key count, 1.0 for an empty expected
dict, and extra actual-only keys ignored.  (`compare_arguments` of the
improvements variant does NOT: it divides by the union of the key sets and
penalizes actual-only keys, see the counterexample.) -/
theorem C4_mapping_similarity (es as extra : List (String × Value))
    (hdisj : ∀ kv ∈ es, lookupVal extra kv.1 = none) :
    (TauRepo.compare_values (.pydict es) (.pydict as)
        = if es.isEmpty then 1 else TauRepo.dictSum es as / es.length)
      ∧ TauRepo.compare_values (.pydict es) (.pydict (as ++ extra))
        = TauRepo.compare_values (.pydict es) (.pydict as) := by
  refine ⟨compare_values_pydict es as, ?_⟩
  rw [compare_values_pydict, compare_values_pydict]
  by_cases he : es.isEmpty
  · rw [if_pos he, if_pos he]
  · rw [if_neg he, if_neg he, dictSum_append_extra as extra es hdisj]

/-- Witness for C4 at a concrete instance: expected `{a: 1}` against
actual `{a: 1}` plus the extra key `b`. -/
theorem C4_mapping_similarity_witness :
    (TauRepo.compare_values (.pydict [("a", .pyint 1)]) (.pydict [("a", .pyint 1)])
        = if ([("a", Value.pyint 1)] : List (String × Value)).isEmpty then 1
          else TauRepo.dictSum [("a", .pyint 1)] [("a", .pyint 1)]
            / ([("a", Value.pyint 1)] : List (String × Value)).length)
      ∧ TauRepo.compare_values (.pydict [("a", .pyint 1)])
          (.pydict ([("a", .pyint 1)] ++ [("b", .pyint 2)]))
        = TauRepo.compare_values (.pydict [("a", .pyint 1)]) (.pydict [("a", .pyint 1)]) :=
  C4_mapping_similarity [("a", .pyint 1)] [("a", .pyint 1)] [("b", .pyint 2)]
    (by simp [lookupVal])


/-- Helper: the decoded arguments of a scrubbed record equal those of the
original record under the tau-bench-repo fallback. -/
theorem decodeArgs_scrubArgs (a : ArgsField) :
    TauRepo.decodeArgs (scrubArgs a) = TauRepo.decodeArgs a := by
  cases a <;> rfl

/-- Helper: `extract_tool_calls` cannot tell a malformed payload from an
empty decodable one anywhere in the trajectory. -/
theorem extract_tool_calls_scrubTraj (traj : List Turn) :
    TauRepo.extract_tool_calls (scrubTraj traj) = TauRepo.extract_tool_calls traj := by
  induction traj with
  | nil => rfl
  | cons t rest ih =>
    rw [scrubTraj, List.map_cons]
    rw [TauRepo.extract_tool_calls, TauRepo.extract_tool_calls]
    rw [scrubTraj] at ih
    rw [ih]
    congr 1
    obtain ⟨r, tc⟩ := t
    cases tc with
    | none => rfl
    | some cs =>
      cases cs with
      | nil => rfl
      | cons c cs2 =>
        simp [decodeArgs_scrubArgs]

/-- C5 (amended): the tau-bench-repo extractor replaces an undecodable
payload by an empty mapping and leaves the other calls untouched (scrubbing
malformed payloads into empty-mapping payloads never changes its output,
and it never fails); the improvements extractor instead propagates the
decode exception and aborts the whole extraction. -/
theorem C5_decode_failure_handling (m : List (String × Value)) (n1 n2 role : String)
    (traj : List Turn) :
    TauRepo.extract_tool_calls [⟨role, some [⟨n1, .malformed⟩, ⟨n2, .decoded m⟩]⟩]
        = [⟨n1, []⟩, ⟨n2, m⟩]
      ∧ TauRepo.extract_tool_calls (scrubTraj traj) = TauRepo.extract_tool_calls traj
      ∧ Improvements.extract_tool_calls_from_trajectory
          [⟨"assistant", some [⟨n1, .malformed⟩]⟩] = .error () := by
  refine ⟨?_, extract_tool_calls_scrubTraj traj, ?_⟩
  · simp [TauRepo.extract_tool_calls, TauRepo.decodeArgs]
  · simp [Improvements.extract_tool_calls_from_trajectory, Improvements.extractTurnCalls]


/-- Helper: the improvements extractor only reads assistant turns with a
present, non-null tool-call list: filtering the trajectory down to those
turns does not change its result. -/
theorem extract_tool_calls_from_trajectory_filter (traj : List Turn) :
    Improvements.extract_tool_calls_from_trajectory traj
      = Improvements.extract_tool_calls_from_trajectory
          (traj.filter (fun t => t.role == "assistant" && t.tool_calls.isSome)) := by
  induction traj with
  | nil => rfl
  | cons t rest ih =>
    obtain ⟨r, tc⟩ := t
    by_cases hr : r = "assistant"
    · subst hr
      cases tc with
      | none =>
        rw [List.filter_cons, if_neg (by simp)]
        rw [Improvements.extract_tool_calls_from_trajectory, if_pos rfl]
        exact ih
      | some cs =>
        rw [List.filter_cons, if_pos (by simp)]
        simp only [Improvements.extract_tool_calls_from_trajectory]
        simp only [if_true, ih]
    · rw [List.filter_cons, if_neg (by simp [hr]),
        Improvements.extract_tool_calls_from_trajectory, if_neg (by simp [hr])]
      exact ih

/-- C8 (amended): the improvements extractor produces invocations only
from assistant turns carrying a non-null tool-call list — any turn with a
different role contributes nothing (dropping it changes nothing, and
filtering the whole trajectory down to the relevant turns leaves the
output unchanged); the tau-bench-repo extractor ignores the role entirely
(relabelling every role leaves its output unchanged), so non-assistant
turns with tool-call lists do contribute there. -/
theorem C8_role_filtering (traj : List Turn) (f : String → String) (t : Turn)
    (ht : t.role ≠ "assistant") :
    Improvements.extract_tool_calls_from_trajectory (t :: traj)
        = Improvements.extract_tool_calls_from_trajectory traj
      ∧ Improvements.extract_tool_calls_from_trajectory traj
        = Improvements.extract_tool_calls_from_trajectory
            (traj.filter (fun u => u.role == "assistant" && u.tool_calls.isSome))
      ∧ TauRepo.extract_tool_calls (relabelTraj f traj) = TauRepo.extract_tool_calls traj := by
  refine ⟨?_, extract_tool_calls_from_trajectory_filter traj, ?_⟩
  · obtain ⟨r, tc⟩ := t
    rw [Improvements.extract_tool_calls_from_trajectory, if_neg ht]
  · induction traj with
    | nil => rfl
    | cons u rest ih =>
      rw [relabelTraj, List.map_cons]
      rw [TauRepo.extract_tool_calls, TauRepo.extract_tool_calls]
      rw [relabelTraj] at ih
      rw [ih]

/-- Witness for C8: a user-role turn carrying a decodable tool call is
dropped by the improvements extractor, while role relabelling (here to
"system") never affects the tau-bench-repo extractor. -/
theorem C8_role_filtering_witness :
    Improvements.extract_tool_calls_from_trajectory
        (⟨"user", some [⟨"get_user_details", .decoded []⟩]⟩
          :: [⟨"assistant", some [⟨"book_flight", .decoded []⟩]⟩])
        = Improvements.extract_tool_calls_from_trajectory
            [⟨"assistant", some [⟨"book_flight", .decoded []⟩]⟩]
      ∧ Improvements.extract_tool_calls_from_trajectory
          [⟨"assistant", some [⟨"book_flight", .decoded []⟩]⟩]
        = Improvements.extract_tool_calls_from_trajectory
            ([⟨"assistant", some [⟨"book_flight", .decoded []⟩]⟩].filter
              (fun u => u.role == "assistant" && u.tool_calls.isSome))
      ∧ TauRepo.extract_tool_calls
          (relabelTraj (fun _ => "system")
            [⟨"assistant", some [⟨"book_flight", .decoded []⟩]⟩])
        = TauRepo.extract_tool_calls [⟨"assistant", some [⟨"book_flight", .decoded []⟩]⟩] :=
  C8_role_filtering [⟨"assistant", some [⟨"book_flight", .decoded []⟩]⟩]
    (fun _ => "system") ⟨"user", some [⟨"get_user_details", .decoded []⟩]⟩ (by simp)

/-- Helper: a running maximum starting from a nonnegative seed stays
nonnegative. -/
theorem foldlMax_nonneg {α : Type} (f : α → ℚ) :
    ∀ (l : List α) (init : ℚ), 0 ≤ init →
      0 ≤ l.foldl (fun b y => max b (f y)) init := by
  intro l
  induction l with
  | nil => intro init h; simpa using h
  | cons x rest ih =>
    intro init h
    rw [List.foldl_cons]
    exact ih _ (le_trans h (le_max_left _ _))

/-- Helper: a running maximum of values at most 1, from a seed at most 1,
stays at most 1. -/
theorem foldlMax_le_one {α : Type} (f : α → ℚ) :
    ∀ (l : List α) (init : ℚ), init ≤ 1 → (∀ y ∈ l, f y ≤ 1) →
      l.foldl (fun b y => max b (f y)) init ≤ 1 := by
  intro l
  induction l with
  | nil => intro init h _; simpa using h
  | cons x rest ih =>
    intro init h hf
    rw [List.foldl_cons]
    exact ih _ (max_le h (hf x (by simp))) (fun y hy => hf y (by simp [hy]))

/-- Helper: the per-key sum of a dict comparison is between 0 and the
number of expected keys, given bounds for the recursive scores. -/
theorem dictSum_bounds :
    ∀ (es as : List (String × Value)),
      (∀ kv ∈ es, ∀ b, 0 ≤ TauRepo.compare_values kv.2 b ∧ TauRepo.compare_values kv.2 b ≤ 1) →
      0 ≤ TauRepo.dictSum es as ∧ TauRepo.dictSum es as ≤ es.length := by
  intro es
  induction es with
  | nil => intro as h; simp [TauRepo.dictSum]
  | cons kv rest ih =>
    intro as h
    obtain ⟨k, v⟩ := kv
    rw [TauRepo.dictSum]
    have hrest := ih as (fun kv2 hm b => h kv2 (by simp [hm]) b)
    cases hl : lookupVal as k with
    | none =>
      refine ⟨?_, ?_⟩
      · show (0:ℚ) ≤ 0 + TauRepo.dictSum rest as
        linarith [hrest.1]
      · show (0:ℚ) + TauRepo.dictSum rest as ≤ (((k, v) :: rest).length : ℚ)
        push_cast [List.length_cons]
        linarith [hrest.2]
    | some av =>
      have hv := h (k, v) (by simp) av
      refine ⟨?_, ?_⟩
      · show (0:ℚ) ≤ TauRepo.compare_values v av + TauRepo.dictSum rest as
        linarith [hv.1, hrest.1]
      · show TauRepo.compare_values v av + TauRepo.dictSum rest as ≤ (((k, v) :: rest).length : ℚ)
        push_cast [List.length_cons]
        linarith [hv.2, hrest.2]

/-- Helper: the best-match sum of a list comparison is between 0 and the
number of expected items, given bounds for the recursive scores. -/
theorem listSum_bounds :
    ∀ (xs ys : List Value),
      (∀ x ∈ xs, ∀ b, 0 ≤ TauRepo.compare_values x b ∧ TauRepo.compare_values x b ≤ 1) →
      0 ≤ TauRepo.listSum xs ys ∧ TauRepo.listSum xs ys ≤ xs.length := by
  intro xs
  induction xs with
  | nil => intro ys h; simp [TauRepo.listSum]
  | cons x rest ih =>
    intro ys h
    rw [TauRepo.listSum]
    have hrest := ih ys (fun x2 hm b => h x2 (by simp [hm]) b)
    have h0 : 0 ≤ ys.foldl (fun best y => max best (TauRepo.compare_values x y)) 0 :=
      foldlMax_nonneg _ ys 0 le_rfl
    have h1 : ys.foldl (fun best y => max best (TauRepo.compare_values x y)) 0 ≤ 1 :=
      foldlMax_le_one _ ys 0 (by norm_num) (fun y hy => (h x (by simp) y).2)
    refine ⟨by linarith [hrest.1], ?_⟩
    push_cast [List.length_cons]
    linarith [hrest.2]

/-- Helper: the list-vs-list case of `compare_values` written out as
nested conditionals. -/
theorem compare_values_pylist (xs ys : List Value) :
    TauRepo.compare_values (.pylist xs) (.pylist ys)
      = if pyEq (.pylist xs) (.pylist ys) = true then 1
        else if ys.isEmpty then (if xs.isEmpty then 1 else 0)
        else if xs.isEmpty then 1
        else TauRepo.listSum xs ys / xs.length := by
  by_cases hq : pyEq (.pylist xs) (.pylist ys) = true
  · rw [compare_values_of_pyEq hq, if_pos hq]
  · rw [if_neg hq]
    rw [TauRepo.compare_values.eq_def, if_neg hq,
      if_neg (show ¬ (pyTypeOf (Value.pylist xs) ≠ pyTypeOf (Value.pylist ys)) by
        simp [pyTypeOf])]

set_option maxHeartbeats 2000000 in
/-- Helper: `compare_values` always returns a score in [0, 1]. -/
theorem compare_values_bounds (e a : Value) :
    0 ≤ TauRepo.compare_values e a ∧ TauRepo.compare_values e a ≤ 1 := by
  have main : ∀ (n : ℕ) (e : Value), sizeOf e ≤ n →
      ∀ a, 0 ≤ TauRepo.compare_values e a ∧ TauRepo.compare_values e a ≤ 1 := by
    intro n
    induction n with
    | zero =>
      intro e he
      exfalso
      cases e <;> simp at he
    | succ n ih =>
      intro e he a
      rcases e with _ | b | ni | q | s | es | xs <;>
        rcases a with _ | b2 | n2 | q2 | s2 | as | ys <;>
        first
          | (rw [TauRepo.compare_values.eq_def]; split_ifs <;> norm_num; done)
          | skip
      · -- dict vs dict
        have hsub : ∀ kv ∈ es, ∀ b,
            0 ≤ TauRepo.compare_values kv.2 b ∧ TauRepo.compare_values kv.2 b ≤ 1 := by
          intro kv hm b
          apply ih
          have hlt : sizeOf kv < sizeOf es := List.sizeOf_lt_of_mem hm
          have hkv : sizeOf kv.2 < sizeOf kv := by
            obtain ⟨k, v⟩ := kv
            simp
            try omega
          have hes : sizeOf (Value.pydict es) ≤ n + 1 := he
          rw [Value.pydict.sizeOf_spec] at hes
          omega
        rw [compare_values_pydict]
        split_ifs with hemp
        · norm_num
        · have hb := dictSum_bounds es as hsub
          have hlen : (0:ℚ) < es.length := by
            have hne : es ≠ [] := by simpa [List.isEmpty_iff] using hemp
            have hz : es.length ≠ 0 := fun h0 => hne (List.length_eq_zero.mp h0)
            exact_mod_cast Nat.pos_of_ne_zero hz
          exact ⟨div_nonneg hb.1 (le_of_lt hlen), (div_le_one hlen).mpr hb.2⟩
      · -- list vs list
        have hsub : ∀ x ∈ xs, ∀ b,
            0 ≤ TauRepo.compare_values x b ∧ TauRepo.compare_values x b ≤ 1 := by
          intro x hm b
          apply ih
          have hlt : sizeOf x < sizeOf xs := List.sizeOf_lt_of_mem hm
          have hxs : sizeOf (Value.pylist xs) ≤ n + 1 := he
          rw [Value.pylist.sizeOf_spec] at hxs
          omega
        rw [compare_values_pylist]
        split_ifs with hq hy hx hx2
        · norm_num
        · norm_num
        · norm_num
        · norm_num
        · have hb := listSum_bounds xs ys hsub
          have hlen : (0:ℚ) < xs.length := by
            have hne : xs ≠ [] := by simpa [List.isEmpty_iff] using hx2
            have hz : xs.length ≠ 0 := fun h0 => hne (List.length_eq_zero.mp h0)
            exact_mod_cast Nat.pos_of_ne_zero hz
          exact ⟨div_nonneg hb.1 (le_of_lt hlen), (div_le_one hlen).mpr hb.2⟩
  exact main (sizeOf e) e le_rfl a

/-- Helper: one candidate score of `calculate_partial_score` is in
[0, 1] (0.4 + 0.6 * similarity on a name match, 0 otherwise). -/
theorem actionScore_bounds (e : ExpectedAction) (c : ToolInvocation) :
    0 ≤ TauRepo.actionScore e c ∧ TauRepo.actionScore e c ≤ 1 := by
  rw [TauRepo.actionScore]
  split_ifs with h
  · have hb := compare_values_bounds (.pydict e.kwargs) (.pydict c.arguments)
    constructor <;> nlinarith [hb.1, hb.2]
  · norm_num

/-- Helper: the best score over a candidate pool is in [0, 1]. -/
theorem bestActionScore_bounds (e : ExpectedAction) (cs : List ToolInvocation) :
    0 ≤ TauRepo.bestActionScore e cs ∧ TauRepo.bestActionScore e cs ≤ 1 := by
  rw [TauRepo.bestActionScore]
  exact ⟨foldlMax_nonneg _ cs 0 le_rfl,
    foldlMax_le_one _ cs 0 (by norm_num) (fun c hc => (actionScore_bounds e c).2)⟩

/-- Helper: the sum of per-item scores in [0, 1] is between 0 and the
number of items. -/
theorem sum_map_bounds {α : Type} (g : α → ℚ) :
    ∀ l : List α, (∀ x ∈ l, 0 ≤ g x ∧ g x ≤ 1) →
      0 ≤ (l.map g).sum ∧ (l.map g).sum ≤ l.length := by
  intro l
  induction l with
  | nil => intro h; simp
  | cons x rest ih =>
    intro h
    rw [List.map_cons, List.sum_cons]
    have hx := h x (by simp)
    have hr := ih (fun y hy => h y (by simp [hy]))
    constructor
    · linarith [hx.1, hr.1]
    · push_cast [List.length_cons]
      linarith [hx.2, hr.2]

/-- Helper: the task score of `calculate_partial_score` is in [0, 1]. -/
theorem calculate_partial_score_bounds (es : List ExpectedAction)
    (cs : List ToolInvocation) :
    0 ≤ TauRepo.calculate_partial_score es cs
      ∧ TauRepo.calculate_partial_score es cs ≤ 1 := by
  rw [TauRepo.calculate_partial_score]
  split_ifs with h1 h2
  · norm_num
  · norm_num
  · have hs := sum_map_bounds (fun e => TauRepo.bestActionScore e cs) es
      (fun e he => bestActionScore_bounds e cs)
    have hlen : (0:ℚ) < es.length := by
      have hne : es ≠ [] := by simpa [List.isEmpty_iff] using h1
      have hz : es.length ≠ 0 := fun h0 => hne (List.length_eq_zero.mp h0)
      exact_mod_cast Nat.pos_of_ne_zero hz
    exact ⟨div_nonneg hs.1 (le_of_lt hlen), (div_le_one hlen).mpr hs.2⟩

/-- C7: the similarity of every pair of values lies in [0, 1], and the
task score of `calculate_partial_score` (the arithmetic mean of the
per-action best scores) lies in [0, 1] for every pair of input lists. -/
theorem C7_scores_in_unit_interval :
    (∀ e a : Value, 0 ≤ TauRepo.compare_values e a ∧ TauRepo.compare_values e a ≤ 1)
      ∧ ∀ (es : List ExpectedAction) (cs : List ToolInvocation),
          0 ≤ TauRepo.calculate_partial_score es cs
            ∧ TauRepo.calculate_partial_score es cs ≤ 1 :=
  ⟨compare_values_bounds, calculate_partial_score_bounds⟩


/-- Helper: `normalize_args` coerces every non-null, non-boolean,
non-numeric value to its `str` form. -/
theorem normalizeVal_of_strCoercedB {u : Value} (hu : strCoercedB u = true) :
    Improvements.normalizeVal u = .pystr (pyStr u) := by
  cases u <;> first
    | (simp [strCoercedB] at hu; done)
    | simp [Improvements.normalizeVal, pyStr]

/-- C10: in `compare_arguments` every non-null, non-boolean, non-numeric
argument value — including nested dicts and lists — is first coerced to
its canonical string and then compared by string equality only, so a
top-level key holding a nested structure earns all-or-nothing credit (a
nested dict agreeing on one of its two inner keys scores 0, not 0.5). -/
theorem C10_string_coercion (k : String) (v w : Value)
    (hv : strCoercedB v = true) (hw : strCoercedB w = true) :
    Improvements.normalizeVal v = .pystr (pyStr v)
      ∧ Improvements.compare_arguments [(k, v)] [(k, w)]
          = (if pyStr v = pyStr w then 1 else 0)
      ∧ Improvements.compare_arguments
          [("a", .pydict [("x", .pyint 1), ("y", .pyint 2)])]
          [("a", .pydict [("x", .pyint 1), ("y", .pyint 3)])] = 0 := by
  refine ⟨normalizeVal_of_strCoercedB hv, ?_, ?_⟩
  · rw [Improvements.compare_arguments]
    simp only [Improvements.normalize_args, List.map_cons, List.map_nil,
      normalizeVal_of_strCoercedB hv, normalizeVal_of_strCoercedB hw]
    simp [Improvements.dictGet, lookupVal, pyEq, toRat?,
      List.dedup_cons_of_mem, List.dedup_cons_of_not_mem,
      List.countP_cons, List.countP_nil]
  · simp [Improvements.compare_arguments, Improvements.normalize_args,
      Improvements.normalizeVal, Improvements.dictGet, lookupVal, pyEq, toRat?,
      pyStr, pyRepr, reprEntries, floatRepr,
      List.dedup_cons_of_mem, List.dedup_cons_of_not_mem,
      List.countP_cons, List.countP_nil]
    decide

/-- Witness for C10: two singleton lists differing in their element. -/
theorem C10_string_coercion_witness :
    Improvements.normalizeVal (.pylist [.pyint 1]) = .pystr (pyStr (.pylist [.pyint 1]))
      ∧ Improvements.compare_arguments [("payload", .pylist [.pyint 1])]
          [("payload", .pylist [.pyint 2])]
        = (if pyStr (.pylist [.pyint 1]) = pyStr (.pylist [.pyint 2]) then 1 else 0)
      ∧ Improvements.compare_arguments
          [("a", .pydict [("x", .pyint 1), ("y", .pyint 2)])]
          [("a", .pydict [("x", .pyint 1), ("y", .pyint 3)])] = 0 :=
  C10_string_coercion "payload" (.pylist [.pyint 1]) (.pylist [.pyint 2]) (by rfl) (by rfl)
